import Mathlib

/-!
Verification of the fixture-to-gameweek classification and match-status
logic of the premier-league-betting repository.  The functions below are
shallow embeddings of the JavaScript sources: `src/unnamed/part_002`
(the revision that writes the gameweek JSON/HTML pages, called v2 below)
and `src/unnamed/part_004` (an earlier console-report revision, v4).
JavaScript machine details are modelled explicitly: strings are processed
as character lists, `parseInt` / `Number` coercion and the `Date` value
(including the Invalid Date) are given executable models, and wall-clock
time (`new Date()`) is threaded as an explicit millisecond parameter.
The model fixes a zero UTC offset (no DST), so a local midnight is an
exact multiple of 86400000 ms.
-/

namespace PLFix

/-- White-space characters skipped by JavaScript `parseInt` and trimmed by
`Number()` string coercion. -/
def isJsWS (c : Char) : Bool :=
  c = ' ' || c = '\t' || c = '\n' || c = '\r' || c = '\x0b' || c = '\x0c'

/-- Model of JavaScript `String.prototype.split` with a one-character
separator: splits at every occurrence, keeping empty fields. -/
def splitOnChar (sep : Char) : List Char → List (List Char)
  | [] => [[]]
  | c :: rest =>
    match splitOnChar sep rest with
    | [] => [[]]
    | h :: t => if c = sep then [] :: h :: t else (c :: h) :: t

/-- Numeric value of a list of decimal digit characters, most significant
first. -/
def digitsToNat (cs : List Char) : Nat :=
  cs.foldl (fun a c => 10 * a + (c.toNat - 48)) 0

/-- The list is nonempty and consists only of decimal digits. -/
def isDigits (cs : List Char) : Bool :=
  !cs.isEmpty && cs.all (·.isDigit)

/-- Longest run of decimal digits at the front of the list. -/
def leadDigits (cs : List Char) : List Char := cs.takeWhile (·.isDigit)

/-- Model of JavaScript `parseInt(s, 10)`: skip leading white space, read an
optional sign and then the longest leading run of decimal digits; the result
is NaN (`none`) when that run is empty. -/
def jsParseInt10 (cs0 : List Char) : Option Int :=
  match cs0.dropWhile isJsWS with
  | '+' :: r =>
    if (leadDigits r).isEmpty then none else some ((digitsToNat (leadDigits r) : Int))
  | '-' :: r =>
    if (leadDigits r).isEmpty then none else some (-(digitsToNat (leadDigits r) : Int))
  | cs =>
    if (leadDigits cs).isEmpty then none else some ((digitsToNat (leadDigits cs) : Int))

/-- The character is a hexadecimal digit. -/
def isHexDigit (c : Char) : Bool :=
  c.isDigit || ('a' ≤ c && c ≤ 'f') || ('A' ≤ c && c ≤ 'F')

/-- Numeric value of one hexadecimal digit. -/
def hexVal (c : Char) : Nat :=
  if c.isDigit then c.toNat - 48 else if 'a' ≤ c then c.toNat - 87 else c.toNat - 55

/-- Numeric value of a list of hexadecimal digit characters. -/
def hexToNat (cs : List Char) : Nat :=
  cs.foldl (fun a c => 16 * a + hexVal c) 0

/-- Unsigned core of `parseInt` with no radix argument: a leading `0x`/`0X`
switches to hexadecimal, otherwise decimal digits are read. -/
def jsParseIntCore (cs : List Char) : Option Nat :=
  match cs with
  | '0' :: c :: r =>
    if c = 'x' || c = 'X' then
      let h := r.takeWhile isHexDigit
      if h.isEmpty then none else some (hexToNat h)
    else
      let d := leadDigits ('0' :: c :: r)
      if d.isEmpty then none else some (digitsToNat d)
  | cs =>
    let d := leadDigits cs
    if d.isEmpty then none else some (digitsToNat d)

/-- Model of JavaScript `parseInt(s)` with no radix argument, as used by the
v4 revision's parseDate. -/
def jsParseIntNR (cs : List Char) : Option Int :=
  let cs := cs.dropWhile isJsWS
  match cs with
  | '+' :: r => (jsParseIntCore r).map (fun n => (n : Int))
  | '-' :: r => (jsParseIntCore r).map (fun n => -(n : Int))
  | _ => (jsParseIntCore cs).map (fun n => (n : Int))

/-- Exponent tail of a decimal literal: nothing, or `e`/`E`, an optional
sign and at least one digit ending the string. -/
def expTail (cs : List Char) : Bool :=
  match cs with
  | [] => true
  | 'e' :: r =>
    (match r with
     | '+' :: d => isDigits d
     | '-' :: d => isDigits d
     | d => isDigits d)
  | 'E' :: r =>
    (match r with
     | '+' :: d => isDigits d
     | '-' :: d => isDigits d
     | d => isDigits d)
  | _ => false

/-- Unsigned part of a JavaScript string numeric literal: `Infinity`,
`digits[.digits][exp]` or `.digits[exp]`. -/
def unsignedNumericTail (cs : List Char) : Bool :=
  if cs = "Infinity".data then true
  else
    let d := leadDigits cs
    if d.isEmpty then
      match cs with
      | '.' :: r2 =>
        let d2 := leadDigits r2
        !d2.isEmpty && expTail (r2.drop d2.length)
      | _ => false
    else
      match cs.drop d.length with
      | '.' :: r2 => expTail (r2.drop (leadDigits r2).length)
      | r => expTail r

/-- Hexadecimal, octal or binary literal accepted by `Number()`. -/
def nonDecimalLit (cs : List Char) : Bool :=
  match cs with
  | '0' :: c :: r =>
    if c = 'x' || c = 'X' then !r.isEmpty && r.all isHexDigit
    else if c = 'o' || c = 'O' then !r.isEmpty && r.all (fun d => '0' ≤ d && d ≤ '7')
    else if c = 'b' || c = 'B' then !r.isEmpty && r.all (fun d => d = '0' || d = '1')
    else false
  | _ => false

/-- Model of `!isNaN(s)` for a string `s`: `s` coerces through `Number()` to
a value other than NaN.  The empty and all-white-space strings coerce to 0,
hence count as numeric. -/
def jsNumeric (s : String) : Bool :=
  let cs := ((s.data.dropWhile isJsWS).reverse.dropWhile isJsWS).reverse
  match cs with
  | [] => true
  | '+' :: r => unsignedNumericTail r
  | '-' :: r => unsignedNumericTail r
  | _ => unsignedNumericTail cs || nonDecimalLit cs

/-- Model of a JavaScript `Date` value: a finite timestamp in milliseconds
since the Unix epoch, or the Invalid Date (whose time value is NaN). -/
inductive JSDate where
  | valid (ms : Int)
  | invalid
  deriving DecidableEq, Repr

/-- Day number of the civil date y-m-d (m in 1..12) relative to 1970-01-01;
Howard Hinnant's days-from-civil computation written with floor division. -/
def daysFromCivil (y m d : Int) : Int :=
  let yAdj := if m ≤ 2 then y - 1 else y
  let era := yAdj.fdiv 400
  let yoe := yAdj - era * 400
  let mp := if m ≤ 2 then m + 9 else m - 3
  let doy := (153 * mp + 2).fdiv 5 + d - 1
  let doe := yoe * 365 + yoe.fdiv 4 - yoe.fdiv 100 + doy
  era * 146097 + doe - 719468

/-- Civil date (year, month, day) of a day number, inverse of
`daysFromCivil`; used to render dates back to text. -/
def civilFromDays (z0 : Int) : Int × Int × Int :=
  let z := z0 + 719468
  let era := z.fdiv 146097
  let doe := z - era * 146097
  let yoe := (doe - doe.fdiv 1460 + doe.fdiv 36524 - doe.fdiv 146096).fdiv 365
  let y := yoe + era * 400
  let doy := doe - (365 * yoe + yoe.fdiv 4 - yoe.fdiv 100)
  let mp := (5 * doy + 2).fdiv 153
  let d := doy - (153 * mp + 2).fdiv 5 + 1
  let m := if mp < 10 then mp + 3 else mp - 9
  (if m ≤ 2 then y + 1 else y, m, d)

/-- Largest magnitude of a finite JavaScript Date timestamp, 8.64e15 ms. -/
def jsMaxMs : Int := 8640000000000000

/-- Model of `new Date(year, monthIndex, day)` at local midnight: a month
index outside 0..11 rolls the year, a day outside the month rolls further,
as in JavaScript; a year 0..99 means 1900+year; a timestamp beyond the
representable range gives the Invalid Date. -/
def mkDate (year monthIdx day : Int) : JSDate :=
  let year := if 0 ≤ year ∧ year ≤ 99 then 1900 + year else year
  let y := year + monthIdx.fdiv 12
  let m := monthIdx.fmod 12 + 1
  let ms := (daysFromCivil y m 1 + (day - 1)) * 86400000
  if ms.natAbs ≤ jsMaxMs.natAbs then .valid ms else .invalid

/-- The year is a leap year in the Gregorian calendar. -/
def isLeapYear (y : Int) : Bool :=
  (y.emod 4 = 0 && y.emod 100 ≠ 0) || y.emod 400 = 0

/-- Number of days of month m (1..12) in year y. -/
def daysInMonth (m y : Int) : Int :=
  if m = 2 then (if isLeapYear y then 29 else 28)
  else if m = 4 ∨ m = 6 ∨ m = 9 ∨ m = 11 then 30 else 31

/-- Two-digit year expansion V8 applies inside Date-string parsing: below
50 becomes 2000+y, 50..99 becomes 1900+y, larger years stand. -/
def expandYear (yRaw : Int) : Int :=
  if yRaw < 50 then 2000 + yRaw else if yRaw ≤ 99 then 1900 + yRaw else yRaw

/-- Model of `new Date(s)` for a string, V8's fallback parser restricted to
the slash-separated numeric strings this codebase produces: three all-digit
fields are read as MM/DD/YY(YY).  A first field outside 1..12, a day
outside the month, a year of more than four digits, or any other shape
gives the Invalid Date. -/
def jsParseDateString (s : String) : JSDate :=
  match splitOnChar '/' s.data with
  | [a, b, c] =>
    if isDigits a && isDigits b && isDigits c && decide (c.length ≤ 4) then
      if (1 : Int) ≤ (digitsToNat a : Int) ∧ (digitsToNat a : Int) ≤ 12 ∧
          (1 : Int) ≤ (digitsToNat b : Int) ∧
          (digitsToNat b : Int) ≤ daysInMonth (digitsToNat a : Int) (expandYear (digitsToNat c : Int)) then
        mkDate (expandYear (digitsToNat c : Int)) ((digitsToNat a : Int) - 1) (digitsToNat b : Int)
      else .invalid
    else .invalid
  | _ => .invalid

/-- Insertion of x into a run, after every element y with le y x: together
with sortBy this is a stable sort, the behaviour ECMAScript guarantees for
Array.prototype.sort under a consistent comparator (stable sorts of a list
under one total preorder agree, so the choice of algorithm is immaterial;
an insertion sort keeps the model kernel-computable). -/
def insertBy {α : Type} (le : α → α → Bool) (x : α) : List α → List α
  | [] => [x]
  | y :: ys => if le y x then y :: insertBy le x ys else x :: y :: ys

/-- Stable sort by the given predicate: elements are inserted in input
order, so equal elements keep their relative order. -/
def sortBy {α : Type} (le : α → α → Bool) (l : List α) : List α :=
  l.foldl (fun acc x => insertBy le x acc) []

/-- Lexicographic order on character codes, the ordering of JavaScript's
default Array.prototype.sort comparator (UTF-16 code units; equal to code
points on the basic plane). -/
def strLe : List Char → List Char → Bool
  | [], _ => true
  | _ :: _, [] => false
  | c :: cs, d :: ds =>
    if c.toNat < d.toNat then true
    else if d.toNat < c.toNat then false
    else strLe cs ds

/-- Raw CSV row fields used by the classifier (football-data.co.uk column
names).  csv-parse with columns:true yields strings; a column missing from
a row is modelled as the empty string (both are falsy where tested). -/
structure Row where
  Date : String
  Time : String
  HomeTeam : String
  AwayTeam : String
  FTHG : String
  FTAG : String
  deriving DecidableEq, Repr

/-- Increment of the count stored under a key in an insertion-ordered
association list, appending a fresh key at the end: the model of a
JavaScript object used as a counter (non-index string keys keep insertion
order). -/
def bumpCount (k : String) : List (String × Nat) → List (String × Nat)
  | [] => [(k, 1)]
  | (k', n) :: t => if k' = k then (k', n + 1) :: t else (k', n) :: bumpCount k t

/-- The teamMatchCounts object of both revisions (part_002 lines 150-157,
part_004 lines 87-95): every record whose HomeTeam, AwayTeam and Date
fields are all truthy bumps both team counters. -/
def teamMatchCounts (records : List Row) : List (String × Nat) :=
  records.foldl
    (fun acc r =>
      if r.HomeTeam ≠ "" ∧ r.AwayTeam ≠ "" ∧ r.Date ≠ "" then
        bumpCount r.AwayTeam (bumpCount r.HomeTeam acc)
      else acc)
    []

/-- Match count recorded for a team, 0 when the team never appears in a
countable record. -/
def countOf (records : List Row) (team : String) : Nat :=
  match (teamMatchCounts records).find? (fun p => p.1 == team) with
  | some p => p.2
  | none => 0

/-- Embedding of detectPremierLeagueTeams from part_002 (lines 150-174):
the teams whose match count reaches threshold = records.length * 0.6,
sorted with the default lexicographic string sort.  The JavaScript
threshold is a binary double; the comparison count >= totalMatches * 0.6
is modelled in exact arithmetic by cross-multiplying with 10. -/
def detectPremierLeagueTeams (records : List Row) : List String :=
  sortBy (fun a b => strLe a.data b.data)
    (((teamMatchCounts records).filter
        (fun p => 6 * records.length ≤ 10 * p.2)).map (fun p => p.1))

/-- Embedding of detectPremierLeagueTeams from part_004 (lines 87-108):
the teams with between 30 and 40 recorded matches inclusive, sorted. -/
def detectPremierLeagueTeams_v4 (records : List Row) : List String :=
  sortBy (fun a b => strLe a.data b.data)
    (((teamMatchCounts records).filter (fun p => 30 ≤ p.2 ∧ p.2 ≤ 40)).map (fun p => p.1))

/-- Embedding of isPremierLeagueMatch (identical in both revisions). -/
def isPremierLeagueMatch (homeTeam awayTeam : String) (premierLeagueTeams : List String) : Bool :=
  premierLeagueTeams.contains homeTeam && premierLeagueTeams.contains awayTeam

/-- Embedding of parseDate from part_002 (lines 139-146): null (`none`) for
a falsy input string or a missing or empty day, month or year field after
splitting on slashes; otherwise the Date built from parseInt of the three
fields, which is the Invalid Date when any of them parses as NaN. -/
def parseDate (dateStr : String) : Option JSDate :=
  if dateStr = "" then none
  else
    match (splitOnChar '/' dateStr.data)[0]?, (splitOnChar '/' dateStr.data)[1]?,
        (splitOnChar '/' dateStr.data)[2]? with
    | some dayS, some monthS, some yearS =>
      if dayS.isEmpty || monthS.isEmpty || yearS.isEmpty then none
      else
        match jsParseInt10 yearS, jsParseInt10 monthS, jsParseInt10 dayS with
        | some yr, some mo, some dy =>
          some (mkDate (if yr < 50 then 2000 + yr else 1900 + yr) (mo - 1) dy)
        | _, _, _ => some .invalid
    | _, _, _ => none

/-- Embedding of parseDate from part_004 (lines 79-84): the same year rule,
but nothing checks that the three fields are present, so a short date like
"16/08" feeds undefined to parseInt (NaN) and yields an Invalid Date
object - which is truthy in JavaScript - instead of null. -/
def parseDate_v4 (dateStr : String) : Option JSDate :=
  if dateStr = "" then none
  else
    match ((splitOnChar '/' dateStr.data)[2]?).bind jsParseIntNR,
        ((splitOnChar '/' dateStr.data)[1]?).bind jsParseIntNR,
        ((splitOnChar '/' dateStr.data)[0]?).bind jsParseIntNR with
    | some yr, some mo, some dy =>
      some (mkDate (if yr < 50 then 2000 + yr else 1900 + yr) (mo - 1) dy)
    | _, _, _ => some .invalid

/-- Embedding of calculateGameweek (part_002 lines 180-184 and part_004
lines 116-124 are the same function): 1 when either argument is null;
otherwise the floor of the day difference over 7, plus 1, clamped into
1..38.  Subtracting an Invalid Date gives NaN, and Math.floor, Math.min
and Math.max all propagate it, so the function then returns NaN (`none` in
the JavaScript-number model used for its result). -/
def calculateGameweek (matchDate seasonStartDate : Option JSDate) : Option Int :=
  match matchDate, seasonStartDate with
  | none, _ => some 1
  | _, none => some 1
  | some .invalid, _ => none
  | _, some .invalid => none
  | some (.valid a), some (.valid b) =>
    let daysDiff := (a - b).fdiv 86400000
    some (max 1 (min 38 (daysDiff.fdiv 7 + 1)))

/-- The first test of both getMatchStatus versions: the two goal fields are
non-empty strings and neither coerces to NaN. -/
def hasValidScore (homeGoals awayGoals : String) : Bool :=
  homeGoals != "" && awayGoals != "" && jsNumeric homeGoals && jsNumeric awayGoals

/-- Embedding of getMatchStatus from part_002 (lines 186-209).  The wall
clock new Date() is the explicit parameter now (in ms); matchDate is the
raw date string its callers pass.  matchEnd = new Date(start + 2h) stays a
valid Date for every date jsParseDateString can produce (years up to 9999),
so it is modelled as the plain timestamp; an Invalid matchStart makes every
comparison false, giving "upcoming". -/
def getMatchStatus (now : Int) (matchDate homeGoals awayGoals : String) : String :=
  if hasValidScore homeGoals awayGoals then "completed"
  else if matchDate = "" then "upcoming"
  else
    match jsParseDateString matchDate with
    | .invalid => "upcoming"
    | .valid matchStart =>
      let matchEnd := matchStart + 2 * 60 * 60 * 1000
      if matchStart ≤ now ∧ now ≤ matchEnd then "ongoing"
      else if matchEnd < now then "postponed"
      else "upcoming"

/-- Embedding of getMatchStatus from part_004 (lines 127-145): ongoing when
the kickoff is between 24 hours and 2 hours in the past, postponed for any
other past kickoff; comparisons against an Invalid Date are all false,
giving "upcoming". -/
def getMatchStatus_v4 (now : Int) (matchDate homeGoals awayGoals : String) : String :=
  if hasValidScore homeGoals awayGoals then "completed"
  else
    match jsParseDateString matchDate with
    | .invalid => "upcoming"
    | .valid matchTime =>
      if matchTime < now - 2 * 60 * 60 * 1000 ∧ now - 24 * 60 * 60 * 1000 < matchTime then
        "ongoing"
      else if matchTime < now then "postponed"
      else "upcoming"

/-- Two-digit zero-padded rendering of a day or month number. -/
def pad2 (n : Int) : String :=
  if n < 10 then "0" ++ toString n else toString n

/-- Model of Date.prototype.toLocaleDateString with the en-GB locale:
DD/MM/YYYY, or the text "Invalid Date" for the Invalid Date. -/
def toLocaleDateStringGB : JSDate → String
  | .invalid => "Invalid Date"
  | .valid ms =>
    let c := civilFromDays (ms.fdiv 86400000)
    pad2 c.2.2 ++ "/" ++ pad2 c.2.1 ++ "/" ++ toString c.1

/-- A record that passed the validity filters, with its parsedDate. -/
structure PRow where
  row : Row
  parsedDate : Option JSDate
  deriving DecidableEq, Repr

/-- A valid record with its assigned gameweek (NaN modelled as none). -/
structure GRow where
  row : Row
  parsedDate : Option JSDate
  gameweek : Option Int
  deriving DecidableEq, Repr

/-- Fields of the object formatMatch returns. -/
structure Formatted where
  homeTeam : String
  awayTeam : String
  score : String
  date : String
  time : String
  status : String
  gameweek : Option Int
  deriving DecidableEq, Repr

/-- Embedding of formatMatch from part_002 (lines 211-229; part_004 lines
148-173 is the same function): note that the status is computed from the
raw fixture.Date string, while the displayed date reparses it with
parseDate (an Invalid Date object is truthy and renders as its locale
string). -/
def formatMatch (now : Int) (fixture : GRow) : Formatted :=
  let status := getMatchStatus now fixture.row.Date fixture.row.FTHG fixture.row.FTAG
  let matchDate := parseDate fixture.row.Date
  let timeStr := if fixture.row.Time = "" then "TBD" else fixture.row.Time
  let scoreDisplay :=
    if status = "completed" then fixture.row.FTHG ++ " - " ++ fixture.row.FTAG
    else if status = "ongoing" then
      (if fixture.row.FTHG = "" then "0" else fixture.row.FTHG) ++ " - " ++
        (if fixture.row.FTAG = "" then "0" else fixture.row.FTAG) ++ " (LIVE)"
    else if status = "postponed" then "POSTPONED"
    else timeStr
  { homeTeam := fixture.row.HomeTeam
    awayTeam := fixture.row.AwayTeam
    score := scoreDisplay
    date :=
      match matchDate with
      | some d => toLocaleDateStringGB d
      | none => fixture.row.Date
    time := timeStr
    status := status
    gameweek := fixture.gameweek }

/-- Embedding of isGameweekComplete (part_002 lines 231-236): every fixture
of the list is in a terminal state, the status being recomputed from the
raw Date string. -/
def isGameweekComplete (now : Int) (fixtures : List GRow) : Bool :=
  fixtures.all (fun fixture =>
    let status := getMatchStatus now fixture.row.Date fixture.row.FTHG fixture.row.FTAG
    status == "completed" || status == "postponed")

/-- One iteration of getCurrentGameweek's for loop; fuel is the number of
iterations left and gw the loop counter. -/
def getCurrentGameweekAux (now : Int) (m : Nat → List GRow) : Nat → Nat → Nat
  | 0, _ => 1
  | fuel + 1, gw =>
    if (m gw).length > 0 ∧ isGameweekComplete now (m gw) = false then gw
    else getCurrentGameweekAux now m fuel (gw + 1)

/-- Embedding of getCurrentGameweek (part_002 lines 238-246): the first
gameweek from 1 to 38 whose bucket is nonempty and not complete, else 1.
The bucket map is passed as a lookup function already carrying the
JavaScript default of an empty list for an absent key. -/
def getCurrentGameweek (now : Int) (m : Nat → List GRow) : Nat :=
  getCurrentGameweekAux now m 38 1

/-- Sort predicate modelling the comparator (a, b) => a.parsedDate -
b.parsedDate: a may precede b when the comparator is at most 0.  A NaN
comparator value (an Invalid Date on either side) is treated as 0 by the
ECMAScript sort. -/
def sortLe (a b : PRow) : Bool :=
  match a.parsedDate, b.parsedDate with
  | some (.valid x), some (.valid y) => decide (x ≤ y)
  | _, _ => true

/-- Embedding of the validation phase shared by both mains (part_002 lines
261-275, part_004 lines 189-203 with its own helpers): keep the records
with truthy Date, HomeTeam and AwayTeam whose two teams were detected,
attach parsedDate, drop the records whose parsedDate is null - an Invalid
Date object is truthy and is NOT dropped - and sort by parsedDate with a
stable sort. -/
def validRecords (records : List Row) : List PRow :=
  let premierLeagueTeams := detectPremierLeagueTeams records
  let kept := records.filter (fun r =>
    r.Date != "" && r.HomeTeam != "" && r.AwayTeam != "" &&
      isPremierLeagueMatch r.HomeTeam r.AwayTeam premierLeagueTeams)
  let withDates := kept.map (fun r => PRow.mk r (parseDate r.Date))
  let nonNull := withDates.filter (fun p => p.parsedDate.isSome)
  sortBy sortLe nonNull

/-- The validation phase of part_004's main, using that revision's
parseDate and team detector. -/
def validRecords_v4 (records : List Row) : List PRow :=
  let premierLeagueTeams := detectPremierLeagueTeams_v4 records
  let kept := records.filter (fun r =>
    r.Date != "" && r.HomeTeam != "" && r.AwayTeam != "" &&
      isPremierLeagueMatch r.HomeTeam r.AwayTeam premierLeagueTeams)
  let withDates := kept.map (fun r => PRow.mk r (parseDate_v4 r.Date))
  let nonNull := withDates.filter (fun p => p.parsedDate.isSome)
  sortBy sortLe nonNull

/-- The gameweek-assignment phase of part_002's main: the season start is
the parsedDate of the first valid record and every valid record gets its
calculateGameweek value. -/
def fixturesWithGameweeks (records : List Row) : List GRow :=
  match validRecords records with
  | [] => []
  | v0 :: rest =>
    (v0 :: rest).map (fun r =>
      GRow.mk r.row r.parsedDate (calculateGameweek r.parsedDate v0.parsedDate))

/-- The gameweek-assignment phase of part_004's main. -/
def fixturesWithGameweeks_v4 (records : List Row) : List GRow :=
  match validRecords_v4 records with
  | [] => []
  | v0 :: rest =>
    (v0 :: rest).map (fun r =>
      GRow.mk r.row r.parsedDate (calculateGameweek r.parsedDate v0.parsedDate))

/-- The fixturesByGameweek grouping as a lookup: the bucket of key k holds,
in their list order, the fixtures whose gameweek is k.  A NaN gameweek
(key none) lands under the object key "NaN", which the 1..38 scan of
getCurrentGameweek never reads. -/
def bucketOf (fixtures : List GRow) (k : Option Int) : List GRow :=
  fixtures.filter (fun f => f.gameweek == k)

/-- The output JSON object of part_002's main; the lastUpdated timestamp
and the HTML side effects are outside the data model. -/
structure Output2 where
  gameweek : Int
  isComplete : Bool
  fixtures : List Formatted
  premierLeagueTeams : List String
  seasonStart : Option JSDate
  deriving DecidableEq, Repr

/-- Embedding of part_002's main (lines 248-321) as a pure pipeline: a run
that finds no valid fixture records logs "No valid fixture records found"
and exits with code 1, modelled as the error outcome; any other run
produces the gameweek JSON data.  A requested gameweek of 0 is falsy in
requestedGameweek || getCurrentGameweek(..), so it falls back to the
computed current gameweek. -/
def pipeline (now : Int) (requestedGameweek : Option Int) (records : List Row) : Except String Output2 :=
  let valid := validRecords records
  match valid with
  | [] => .error "No valid fixture records found"
  | v0 :: _ =>
    let fixturesWithGW := fixturesWithGameweeks records
    let m := fun gw : Nat => bucketOf fixturesWithGW (some (gw : Int))
    let targetGameweek : Int :=
      match requestedGameweek with
      | some g => if g = 0 then (getCurrentGameweek now m : Int) else g
      | none => (getCurrentGameweek now m : Int)
    let fixtures := bucketOf fixturesWithGW (some targetGameweek)
    .ok
      { gameweek := targetGameweek
        isComplete := if fixtures.length > 0 then isGameweekComplete now fixtures else false
        fixtures := fixtures.map (formatMatch now)
        premierLeagueTeams := detectPremierLeagueTeams records
        seasonStart := v0.parsedDate }

/-- Result of part_004's console main, modelled up to the grouping phase:
past it, that revision calls getCurrentGameweek and isGameweekComplete,
which part_004 never defines, so any run with fixtures throws a
ReferenceError caught by its catch block.  The claims only need the
outcome of the guards and the grouping. -/
inductive V4Outcome where
  | noValidFixtures
  | grouped (fixtures : List GRow)
  deriving DecidableEq, Repr

/-- Embedding of the decision part_004's main takes at lines 207-210: with
zero valid records it logs "No valid fixture records found" and returns
early, producing no report; otherwise the grouped fixtures flow on. -/
def pipeline_v4 (records : List Row) : V4Outcome :=
  match validRecords_v4 records with
  | [] => .noValidFixtures
  | _ => .grouped (fixturesWithGameweeks_v4 records)

/-- Gameweek formula exactly as the specification words it, over whole-day
numbers: floor of the day difference over 7, plus 1, clamped into the
closed range 1..38. -/
def gameweekSpec (matchDay seasonStartDay : Int) : Int :=
  max 1 (min 38 ((matchDay - seasonStartDay).fdiv 7 + 1))

/-- Input with one malformed date: 29 well-formed fixtures between two
teams (so both teams' counts land in every acceptance band) and one whose
Date string "16/08" lacks the year field. -/
def malformedDateRows : List Row :=
  List.replicate 29 (Row.mk "01/08/25" "15:00" "Arsenal" "Chelsea" "" "") ++
    [Row.mk "16/08" "15:00" "Arsenal" "Chelsea" "" ""]

/-! Sanity anchors: concrete evaluations of the JavaScript model, checked
against the behaviour of the functions in a real JavaScript runtime
(timestamps are real epoch values: 2025-08-05 is 1754352000000 ms). -/

example : splitOnChar '/' "16/08/25".data = [['1', '6'], ['0', '8'], ['2', '5']] := by decide

example : jsNumeric "2" = true ∧ jsNumeric "abc" = false ∧ jsNumeric "1.5e3" = true := by decide

example : jsParseDateString "08/05/25" = .valid 1754352000000 := by decide

example : jsParseDateString "16/08/25" = .invalid := by decide

example : parseDate "05/08/25" = some (.valid 1754352000000) := by decide

example : parseDate_v4 "16/08" = some .invalid ∧ parseDate "16/08" = none := by decide

example : getMatchStatus 1754353000000 "08/05/25" "" "" = "ongoing" := by decide

example : getMatchStatus_v4 1754353000000 "08/05/25" "" "" = "postponed" := by decide

/-! Claim theorems. -/

/-- C1: for every match whose homeGoals and awayGoals fields are both
non-empty and numeric, getMatchStatus returns "completed" in both
revisions, regardless of the match date and of the current wall-clock
time (even a future-dated match with a score is completed). -/
theorem completed_of_valid_score (now : Int) (matchDate homeGoals awayGoals : String)
    (hh : homeGoals ≠ "") (ha : awayGoals ≠ "")
    (nh : jsNumeric homeGoals = true) (na : jsNumeric awayGoals = true) :
    getMatchStatus now matchDate homeGoals awayGoals = "completed" ∧
      getMatchStatus_v4 now matchDate homeGoals awayGoals = "completed" := by
  have hv : hasValidScore homeGoals awayGoals = true := by
    simp [hasValidScore, bne_iff_ne, hh, ha, nh, na]
  exact ⟨by simp [getMatchStatus, hv], by simp [getMatchStatus_v4, hv]⟩

/-- Witness for C1: a future-dated match (relative to a 1970 clock) with a
score is completed. -/
theorem completed_of_valid_score_witness :
    getMatchStatus 0 "01/08/99" "2" "1" = "completed" ∧
      getMatchStatus_v4 0 "01/08/99" "2" "1" = "completed" :=
  completed_of_valid_score 0 "01/08/99" "2" "1" (by decide) (by decide) (by decide)
    (by decide)

/-- C3: on parsed dates (local midnights, ms timestamps) calculateGameweek
computes the specification formula, and the result always lies in 1..38. -/
theorem calculateGameweek_formula (matchDay seasonDay : Int) :
    calculateGameweek (some (.valid (matchDay * 86400000)))
        (some (.valid (seasonDay * 86400000)))
      = some (gameweekSpec matchDay seasonDay) ∧
    1 ≤ gameweekSpec matchDay seasonDay ∧ gameweekSpec matchDay seasonDay ≤ 38 := by
  refine ⟨?_, le_max_left 1 _, max_le (by norm_num) (min_le_left _ _)⟩
  show some (max 1 (min 38
      (((matchDay * 86400000 - seasonDay * 86400000).fdiv 86400000).fdiv 7 + 1)))
    = some (gameweekSpec matchDay seasonDay)
  have h : matchDay * 86400000 - seasonDay * 86400000 = (matchDay - seasonDay) * 86400000 := by
    ring
  rw [h, Int.mul_fdiv_cancel _ (by norm_num)]
  rfl

/-- Floor division by a positive constant is monotone. -/
theorem fdiv_le_fdiv_of_le {a b c : Int} (hc : 0 < c) (h : a ≤ b) :
    a.fdiv c ≤ b.fdiv c := by
  rw [Int.fdiv_eq_ediv a (le_of_lt hc), Int.fdiv_eq_ediv b (le_of_lt hc)]
  exact Int.ediv_le_ediv hc h

/-- C8: gameweek assignment is monotone non-decreasing in the match date:
against the same season start, an earlier parsed date never receives a
larger gameweek. -/
theorem calculateGameweek_monotone (a b s : Int) (h : a < b) (ga gb : Int)
    (hga : calculateGameweek (some (.valid a)) (some (.valid s)) = some ga)
    (hgb : calculateGameweek (some (.valid b)) (some (.valid s)) = some gb) :
    ga ≤ gb := by
  simp only [calculateGameweek, Option.some.injEq] at hga hgb
  have h1 : (a - s).fdiv 86400000 ≤ (b - s).fdiv 86400000 :=
    fdiv_le_fdiv_of_le (by norm_num) (by omega)
  have h2 : ((a - s).fdiv 86400000).fdiv 7 ≤ ((b - s).fdiv 86400000).fdiv 7 :=
    fdiv_le_fdiv_of_le (by norm_num) h1
  rw [← hga, ← hgb]
  exact max_le_max (le_refl 1) (min_le_min (le_refl 38) (by omega))

/-- Witness for C8 at two concrete dates seven days apart. -/
theorem calculateGameweek_monotone_witness :
    (0 : Int) < 604800000 ∧
    calculateGameweek (some (.valid 0)) (some (.valid 0)) = some 1 ∧
    calculateGameweek (some (.valid 604800000)) (some (.valid 0)) = some 2 ∧
    (1 : Int) ≤ 2 :=
  ⟨by decide, by decide, by decide,
    calculateGameweek_monotone 0 604800000 0 (by decide) 1 2 (by decide) (by decide)⟩

/-- C6: a run whose validation phase keeps zero records reports the
explicit empty-result condition, each revision independently of the other:
whenever part_002's filtering keeps nothing, its main errors out (exit
code 1, modelled as the error outcome, disjoint from every normal output),
and whenever part_004's filtering keeps nothing, its main stops at the
no-valid-fixtures return, producing no grouped report. -/
theorem empty_result_error (now : Int) (requestedGameweek : Option Int)
    (records : List Row) :
    (validRecords records = [] →
      pipeline now requestedGameweek records = .error "No valid fixture records found" ∧
        ∀ out : Output2, pipeline now requestedGameweek records ≠ .ok out) ∧
    (validRecords_v4 records = [] →
      pipeline_v4 records = .noValidFixtures ∧
        ∀ fx, pipeline_v4 records ≠ .grouped fx) := by
  constructor
  · intro h2
    have hp : pipeline now requestedGameweek records
        = .error "No valid fixture records found" := by
      unfold pipeline
      rw [h2]
    refine ⟨hp, fun out hout => ?_⟩
    rw [hp] at hout
    exact Except.noConfusion hout
  · intro h4
    have hq : pipeline_v4 records = .noValidFixtures := by
      unfold pipeline_v4
      rw [h4]
    refine ⟨hq, fun fx hfx => ?_⟩
    rw [hq] at hfx
    exact V4Outcome.noConfusion hfx

/-- Witness for C6 at the empty input, discharging each revision's
emptiness hypothesis separately. -/
theorem empty_result_error_witness :
    pipeline 0 none [] = .error "No valid fixture records found" ∧
      pipeline_v4 [] = .noValidFixtures :=
  ⟨((empty_result_error 0 none []).1 (by decide)).1,
    ((empty_result_error 0 none []).2 (by decide)).1⟩

/-- Unfolding equation for one loop iteration of getCurrentGameweekAux. -/
theorem getCurrentGameweekAux_succ (now : Int) (m : Nat → List GRow) (n gw : Nat) :
    getCurrentGameweekAux now m (n + 1) gw =
      if (m gw).length > 0 ∧ isGameweekComplete now (m gw) = false then gw
      else getCurrentGameweekAux now m n (gw + 1) := rfl

/-- Scanning lemma for getCurrentGameweek's loop: starting at gw with the
given fuel it returns either the first gameweek in range that is populated
and not complete, or 1 when the whole range is complete or empty. -/
theorem getCurrentGameweekAux_spec (now : Int) (m : Nat → List GRow) :
    ∀ fuel gw : Nat,
      (gw ≤ getCurrentGameweekAux now m fuel gw ∧
        getCurrentGameweekAux now m fuel gw < gw + fuel ∧
        m (getCurrentGameweekAux now m fuel gw) ≠ [] ∧
        isGameweekComplete now (m (getCurrentGameweekAux now m fuel gw)) = false ∧
        ∀ k, gw ≤ k → k < getCurrentGameweekAux now m fuel gw →
          (m k = [] ∨ isGameweekComplete now (m k) = true)) ∨
      (getCurrentGameweekAux now m fuel gw = 1 ∧
        ∀ k, gw ≤ k → k < gw + fuel → (m k = [] ∨ isGameweekComplete now (m k) = true)) := by
  intro fuel
  induction fuel with
  | zero =>
    intro gw
    right
    exact ⟨rfl, fun k h1 h2 => absurd (Nat.lt_of_le_of_lt h1 h2) (by omega)⟩
  | succ n ih =>
    intro gw
    by_cases h : (m gw).length > 0 ∧ isGameweekComplete now (m gw) = false
    · have hg : getCurrentGameweekAux now m (n + 1) gw = gw := by
        rw [getCurrentGameweekAux_succ, if_pos h]
      left
      rw [hg]
      refine ⟨le_refl _, by omega, ?_, h.2, fun k h1 h2 => absurd (Nat.lt_of_le_of_lt h1 h2) (by omega)⟩
      intro hem
      rw [hem] at h
      simp at h
    · have hg : getCurrentGameweekAux now m (n + 1) gw = getCurrentGameweekAux now m n (gw + 1) := by
        rw [getCurrentGameweekAux_succ, if_neg h]
      have hgw : m gw = [] ∨ isGameweekComplete now (m gw) = true := by
        by_cases he : m gw = []
        · exact .inl he
        · right
          by_contra hc
          exact h ⟨List.length_pos.mpr he, by simpa using hc⟩
      rcases ih (gw + 1) with ⟨h1, h2, h3, h4, h5⟩ | ⟨h1, h2⟩
      · left
        rw [hg]
        refine ⟨by omega, by omega, h3, h4, fun k hk1 hk2 => ?_⟩
        rcases Nat.eq_or_lt_of_le hk1 with heq | hlt
        · rw [← heq]
          exact hgw
        · exact h5 k hlt (by omega)
      · right
        rw [hg]
        refine ⟨h1, fun k hk1 hk2 => ?_⟩
        rcases Nat.eq_or_lt_of_le hk1 with heq | hlt
        · rw [← heq]
          exact hgw
        · exact h2 k hlt (by omega)

/-- C5: getCurrentGameweek returns a gameweek in 1..38, and either it is
the lowest gameweek that has at least one fixture and is not complete
(every lower one being empty or complete), or it is the default 1 with
every gameweek in 1..38 empty or complete - in particular 1 on an empty
mapping. -/
theorem getCurrentGameweek_spec (now : Int) (m : Nat → List GRow) :
    (1 ≤ getCurrentGameweek now m ∧ getCurrentGameweek now m ≤ 38) ∧
    ((m (getCurrentGameweek now m) ≠ [] ∧
        isGameweekComplete now (m (getCurrentGameweek now m)) = false ∧
        ∀ k, 1 ≤ k → k < getCurrentGameweek now m →
          (m k = [] ∨ isGameweekComplete now (m k) = true)) ∨
      (getCurrentGameweek now m = 1 ∧
        ∀ k, 1 ≤ k → k ≤ 38 → (m k = [] ∨ isGameweekComplete now (m k) = true))) := by
  have hs := getCurrentGameweekAux_spec now m 38 1
  unfold getCurrentGameweek
  rcases hs with ⟨h1, h2, h3, h4, h5⟩ | ⟨h1, h2⟩
  · exact ⟨⟨h1, by omega⟩, .inl ⟨h3, h4, h5⟩⟩
  · refine ⟨⟨?_, ?_⟩, .inr ⟨h1, fun k a b => h2 k a (by omega)⟩⟩
    · rw [h1]
    · rw [h1]
      norm_num

/-- The empty string does not parse as a Date (split yields one field). -/
theorem jsParseDateString_empty : jsParseDateString "" = .invalid := rfl

/-- Any slash-split date text whose first field reads above 12 is rejected
by the Date constructor: V8 reads that field as the month. -/
theorem jsParseDateString_invalid_of_day_gt12 (s : String) (ds ms ys : List Char)
    (hsplit : splitOnChar '/' s.data = [ds, ms, ys]) (h12 : 12 < digitsToNat ds) :
    jsParseDateString s = .invalid := by
  unfold jsParseDateString
  rw [hsplit]
  show (if (isDigits ds && isDigits ms && isDigits ys && decide (ys.length ≤ 4)) = true then
      if (1 : Int) ≤ (digitsToNat ds : Int) ∧ (digitsToNat ds : Int) ≤ 12 ∧
          (1 : Int) ≤ (digitsToNat ms : Int) ∧
          (digitsToNat ms : Int) ≤ daysInMonth (digitsToNat ds : Int) (expandYear (digitsToNat ys : Int)) then
        mkDate (expandYear (digitsToNat ys : Int)) ((digitsToNat ds : Int) - 1) (digitsToNat ms : Int)
      else .invalid
    else .invalid) = JSDate.invalid
  by_cases hc : (isDigits ds && isDigits ms && isDigits ys && decide (ys.length ≤ 4)) = true
  · rw [if_pos hc, if_neg]
    intro hcon
    have hm : ((digitsToNat ds : Int)) ≤ 12 := hcon.2.1
    have : (12 : Int) < (digitsToNat ds : Int) := by exact_mod_cast h12
    omega
  · rw [if_neg hc]

/-- C2: under the default two-hour window (part_002's getMatchStatus), a
match with no valid score whose parsed kickoff lies more than two hours in
the past is postponed, and one whose kickoff window still covers the
current instant is ongoing. -/
theorem postponed_and_ongoing_windows (now kick : Int)
    (matchDate homeGoals awayGoals : String)
    (hs : hasValidScore homeGoals awayGoals = false)
    (hp : jsParseDateString matchDate = .valid kick) :
    (kick + 2 * 60 * 60 * 1000 < now →
      getMatchStatus now matchDate homeGoals awayGoals = "postponed") ∧
    (kick ≤ now → now ≤ kick + 2 * 60 * 60 * 1000 →
      getMatchStatus now matchDate homeGoals awayGoals = "ongoing") := by
  have hne : matchDate ≠ "" := by
    intro he
    rw [he, jsParseDateString_empty] at hp
    exact JSDate.noConfusion hp
  have key : getMatchStatus now matchDate homeGoals awayGoals =
      (if kick ≤ now ∧ now ≤ kick + 2 * 60 * 60 * 1000 then "ongoing"
       else if kick + 2 * 60 * 60 * 1000 < now then "postponed"
       else "upcoming") := by
    unfold getMatchStatus
    rw [hs, if_neg (by simp), if_neg hne, hp]
  rw [key]
  constructor
  · intro hlt
    rw [if_neg (by omega), if_pos hlt]
  · intro h1 h2
    rw [if_pos ⟨h1, h2⟩]

/-- Witness for C2: the fixture dated "08/05/25" (timestamp 1754352000000)
is postponed once the clock passes two hours after kickoff and ongoing
within the window. -/
theorem postponed_and_ongoing_windows_witness :
    getMatchStatus 1754360000000 "08/05/25" "" "" = "postponed" ∧
      getMatchStatus 1754353000000 "08/05/25" "" "" = "ongoing" :=
  ⟨(postponed_and_ongoing_windows 1754360000000 1754352000000 "08/05/25" "" ""
      (by decide) (by decide)).1 (by decide),
    (postponed_and_ongoing_windows 1754353000000 1754352000000 "08/05/25" "" ""
      (by decide) (by decide)).2 (by decide) (by decide)⟩

/-- C10: the pipeline (formatMatch, and likewise isGameweekComplete) hands
getMatchStatus the raw DD/MM/YY text, and a scoreless fixture whose day
field exceeds 12 cannot be parsed by the Date constructor: its status is
"upcoming" at every instant - ongoing and postponed are unreachable - and
a gameweek bucket containing such a fixture is never complete. -/
theorem raw_unparseable_date_upcoming (now : Int) (f : GRow) (fixtures : List GRow)
    (ds ms ys : List Char)
    (hsplit : splitOnChar '/' f.row.Date.data = [ds, ms, ys])
    (h12 : 12 < digitsToNat ds)
    (hs : hasValidScore f.row.FTHG f.row.FTAG = false)
    (hf : f ∈ fixtures) :
    (formatMatch now f).status = getMatchStatus now f.row.Date f.row.FTHG f.row.FTAG ∧
      getMatchStatus now f.row.Date f.row.FTHG f.row.FTAG = "upcoming" ∧
      isGameweekComplete now fixtures = false := by
  have hne : f.row.Date ≠ "" := by
    intro he
    rw [he] at hsplit
    simpa [splitOnChar] using congrArg List.length hsplit
  have hinv : jsParseDateString f.row.Date = .invalid :=
    jsParseDateString_invalid_of_day_gt12 _ ds ms ys hsplit h12
  have hup : getMatchStatus now f.row.Date f.row.FTHG f.row.FTAG = "upcoming" := by
    unfold getMatchStatus
    rw [hs, if_neg (by simp), if_neg hne, hinv]
  refine ⟨rfl, hup, ?_⟩
  by_contra hc
  have hall : isGameweekComplete now fixtures = true := by
    cases h : isGameweekComplete now fixtures
    · exact absurd h hc
    · rfl
  unfold isGameweekComplete at hall
  rw [List.all_eq_true] at hall
  have := hall f hf
  rw [hup] at this
  exact absurd this (by decide)

/-- Witness for C10: a fixture dated "16/08/25" with no score is upcoming
even when the clock is far past any sensible date, and its gameweek is
never complete. -/
theorem raw_unparseable_date_upcoming_witness :
    getMatchStatus 99999999999999 "16/08/25" "" "" = "upcoming" ∧
      isGameweekComplete 99999999999999
        [GRow.mk (Row.mk "16/08/25" "15:00" "Arsenal" "Chelsea" "" "") (some .invalid) none]
        = false :=
  ⟨(raw_unparseable_date_upcoming 99999999999999
      (GRow.mk (Row.mk "16/08/25" "15:00" "Arsenal" "Chelsea" "" "") (some .invalid) none)
      [GRow.mk (Row.mk "16/08/25" "15:00" "Arsenal" "Chelsea" "" "") (some .invalid) none]
      ['1', '6'] ['0', '8'] ['2', '5'] (by decide) (by decide) (by decide)
      (List.mem_singleton.mpr rfl)).2.1,
    (raw_unparseable_date_upcoming 99999999999999
      (GRow.mk (Row.mk "16/08/25" "15:00" "Arsenal" "Chelsea" "" "") (some .invalid) none)
      [GRow.mk (Row.mk "16/08/25" "15:00" "Arsenal" "Chelsea" "" "") (some .invalid) none]
      ['1', '6'] ['0', '8'] ['2', '5'] (by decide) (by decide) (by decide)
      (List.mem_singleton.mpr rfl)).2.2⟩

set_option maxRecDepth 10000 in
/-- C7, failing on part_004: its parseDate turns the year-less date "16/08"
into a truthy Invalid Date object instead of null, so the record passes the
parsedDate filter, reaches the gameweek grouping with a NaN gameweek and
sits in a bucket - it is not excluded from downstream processing.
part_002's parseDate checks the fields and excludes the record, as the
claim states. -/
theorem malformed_date_not_excluded_v4 :
    parseDate_v4 "16/08" = some .invalid ∧
    ((fixturesWithGameweeks_v4 malformedDateRows).filter
        (fun f => f.row.Date == "16/08")).length = 1 ∧
    (bucketOf (fixturesWithGameweeks_v4 malformedDateRows) none).length = 1 ∧
    parseDate "16/08" = none ∧
    (fixturesWithGameweeks malformedDateRows).filter
        (fun f => f.row.Date == "16/08") = [] := by
  decide

/-- A decimal digit character is not parseInt white space. -/
theorem isJsWS_eq_false_of_isDigit {c : Char} (h : c.isDigit = true) : isJsWS c = false := by
  unfold isJsWS
  have h1 : c ≠ ' ' := fun he => absurd (he ▸ h) (by decide)
  have h2 : c ≠ '\t' := fun he => absurd (he ▸ h) (by decide)
  have h3 : c ≠ '\n' := fun he => absurd (he ▸ h) (by decide)
  have h4 : c ≠ '\r' := fun he => absurd (he ▸ h) (by decide)
  have h5 : c ≠ '\x0b' := fun he => absurd (he ▸ h) (by decide)
  have h6 : c ≠ '\x0c' := fun he => absurd (he ▸ h) (by decide)
  simp [h1, h2, h3, h4, h5, h6]

/-- A decimal digit character is not a slash. -/
theorem ne_slash_of_isDigit {c : Char} (h : c.isDigit = true) : c ≠ '/' :=
  fun he => absurd (he ▸ h) (by decide)

/-- Every character of an all-digit field is a digit. -/
theorem mem_isDigit {cs : List Char} (h : isDigits cs = true) {c : Char} (hc : c ∈ cs) :
    c.isDigit = true := by
  rw [isDigits, Bool.and_eq_true] at h
  exact List.all_eq_true.mp h.2 c hc

/-- An all-digit field is nonempty. -/
theorem isEmpty_eq_false_of_isDigits {cs : List Char} (h : isDigits cs = true) :
    cs.isEmpty = false := by
  rw [isDigits, Bool.and_eq_true] at h
  cases hc : cs.isEmpty
  · rfl
  · rw [hc] at h
    exact absurd h.1 (by decide)

/-- splitOnChar never returns the empty list of fields. -/
theorem splitOnChar_ne_nil (sep : Char) (cs : List Char) : splitOnChar sep cs ≠ [] := by
  cases cs with
  | nil => simp [splitOnChar]
  | cons c r =>
    show (match splitOnChar sep r with
      | [] => [[]]
      | h :: t => if c = sep then [] :: h :: t else (c :: h) :: t) ≠ []
    cases splitOnChar sep r with
    | nil => simp
    | cons h t =>
      by_cases hc : c = sep
      · simp [hc]
      · simp [hc]

/-- Splitting a list that starts with a separator-free field and then a
separator detaches that field. -/
theorem splitOnChar_append (sep : Char) (pre rest : List Char)
    (h : ∀ c ∈ pre, c ≠ sep) :
    splitOnChar sep (pre ++ sep :: rest) = pre :: splitOnChar sep rest := by
  induction pre with
  | nil =>
    show (match splitOnChar sep rest with
      | [] => [[]]
      | h :: t => if sep = sep then [] :: h :: t else (sep :: h) :: t)
      = [] :: splitOnChar sep rest
    cases hr : splitOnChar sep rest with
    | nil => exact absurd hr (splitOnChar_ne_nil sep rest)
    | cons hh tt => simp
  | cons c cs ih =>
    have hc : c ≠ sep := h c (List.mem_cons_self _ _)
    have ih2 := ih (fun d hd => h d (List.mem_cons_of_mem _ hd))
    show (match splitOnChar sep (cs ++ sep :: rest) with
      | [] => [[]]
      | h :: t => if c = sep then [] :: h :: t else (c :: h) :: t)
      = (c :: cs) :: splitOnChar sep rest
    rw [ih2]
    simp [hc]

/-- Splitting a separator-free list yields a single field. -/
theorem splitOnChar_no_sep (sep : Char) (cs : List Char) (h : ∀ c ∈ cs, c ≠ sep) :
    splitOnChar sep cs = [cs] := by
  induction cs with
  | nil => rfl
  | cons c r ih =>
    have hc : c ≠ sep := h c (List.mem_cons_self _ _)
    have ih2 := ih (fun d hd => h d (List.mem_cons_of_mem _ hd))
    show (match splitOnChar sep r with
      | [] => [[]]
      | h :: t => if c = sep then [] :: h :: t else (c :: h) :: t) = [c :: r]
    rw [ih2]
    simp [hc]

/-- takeWhile keeps a list every element of which satisfies the test. -/
theorem takeWhile_eq_self_of_all {p : Char → Bool} :
    ∀ cs : List Char, cs.all p = true → cs.takeWhile p = cs
  | [], _ => rfl
  | c :: r, h => by
    rw [List.all_cons, Bool.and_eq_true] at h
    simp [List.takeWhile_cons, h.1, takeWhile_eq_self_of_all r h.2]

/-- parseInt with radix 10 of an all-digit field is its numeric value. -/
theorem jsParseInt10_digits (cs : List Char) (h : isDigits cs = true) :
    jsParseInt10 cs = some ((digitsToNat cs : Int)) := by
  obtain ⟨c, r, rfl⟩ : ∃ c r, cs = c :: r := by
    cases cs with
    | nil => simp [isDigits] at h
    | cons c r => exact ⟨c, r, rfl⟩
  have hall : (c :: r).all (·.isDigit) = true := by
    rw [isDigits, Bool.and_eq_true] at h
    exact h.2
  have hc : c.isDigit = true := by
    rw [List.all_cons, Bool.and_eq_true] at hall
    exact hall.1
  have hdrop : (c :: r).dropWhile isJsWS = c :: r := by
    rw [List.dropWhile_cons, isJsWS_eq_false_of_isDigit hc]
    simp
  have hlead : leadDigits (c :: r) = c :: r := takeWhile_eq_self_of_all _ hall
  unfold jsParseInt10
  rw [hdrop]
  split
  · next r2 heq =>
    injection heq with h1 _
    exact absurd (h1 ▸ hc) (by decide)
  · next r2 heq =>
    injection heq with h1 _
    exact absurd (h1 ▸ hc) (by decide)
  · next cs2 hne1 hne2 =>
    rw [hlead, List.isEmpty_cons]
    simp

/-- C4: parseDate expands the two-digit year of every well-formed date
string DD/MM/YY: the Date it builds carries full year 2000+YY when YY is
below 50 and 1900+YY when YY is 50 or above. -/
theorem parseDate_year_expansion (ds ms ys : List Char)
    (hd : isDigits ds = true) (hm : isDigits ms = true) (hy : isDigits ys = true)
    (_hd2 : ds.length = 2) (_hm2 : ms.length = 2) (_hy2 : ys.length = 2) :
    parseDate (String.mk (ds ++ '/' :: (ms ++ '/' :: ys))) =
      some (mkDate
        (if (digitsToNat ys : Int) < 50 then 2000 + (digitsToNat ys : Int)
          else 1900 + (digitsToNat ys : Int))
        ((digitsToNat ms : Int) - 1) ((digitsToNat ds : Int))) := by
  have hne : String.mk (ds ++ '/' :: (ms ++ '/' :: ys)) ≠ "" := by
    intro he
    have h0 : (ds ++ '/' :: (ms ++ '/' :: ys)) = [] := congrArg String.data he
    simp [List.append_eq_nil] at h0
  have hsplit : splitOnChar '/' (String.mk (ds ++ '/' :: (ms ++ '/' :: ys))).data
      = [ds, ms, ys] := by
    show splitOnChar '/' (ds ++ '/' :: (ms ++ '/' :: ys)) = [ds, ms, ys]
    rw [splitOnChar_append '/' ds _ (fun c hc => ne_slash_of_isDigit (mem_isDigit hd hc)),
      splitOnChar_append '/' ms _ (fun c hc => ne_slash_of_isDigit (mem_isDigit hm hc)),
      splitOnChar_no_sep '/' ys (fun c hc => ne_slash_of_isDigit (mem_isDigit hy hc))]
  unfold parseDate
  rw [if_neg hne, hsplit]
  simp only [List.getElem?_cons_zero, List.getElem?_cons_succ]
  rw [if_neg]
  · rw [jsParseInt10_digits ys hy, jsParseInt10_digits ms hm, jsParseInt10_digits ds hd]
  · simp [isEmpty_eq_false_of_isDigits hd, isEmpty_eq_false_of_isDigits hm,
      isEmpty_eq_false_of_isDigits hy]

/-- Witness for C4 at the four years the specification names: 25 maps to
2025, 99 to 1999, 49 to 2049 and 50 to 1950. -/
theorem parseDate_year_expansion_witness :
    parseDate "05/08/25" = some (mkDate 2025 7 5) ∧
    parseDate "05/08/99" = some (mkDate 1999 7 5) ∧
    parseDate "05/08/49" = some (mkDate 2049 7 5) ∧
    parseDate "05/08/50" = some (mkDate 1950 7 5) := by
  refine ⟨?_, by decide, by decide, by decide⟩
  have h := parseDate_year_expansion ['0', '5'] ['0', '8'] ['2', '5']
    (by decide) (by decide) (by decide) (by decide) (by decide) (by decide)
  exact h

/-- insertBy produces a permutation of pushing the element in front. -/
theorem insertBy_perm {α : Type} (le : α → α → Bool) (x : α) :
    ∀ l : List α, (insertBy le x l).Perm (x :: l)
  | [] => List.Perm.refl _
  | y :: ys => by
    unfold insertBy
    by_cases h : le y x
    · rw [if_pos h]
      exact (((insertBy_perm le x ys).cons y).trans (List.Perm.swap x y ys))
    · rw [if_neg h]

/-- sortBy permutes its input. -/
theorem sortBy_fold_perm {α : Type} (le : α → α → Bool) :
    ∀ (l acc : List α),
      (l.foldl (fun acc x => insertBy le x acc) acc).Perm (acc ++ l)
  | [], acc => by simp
  | x :: xs, acc => by
    rw [List.foldl_cons]
    have h1 := sortBy_fold_perm le xs (insertBy le x acc)
    have h2 : (insertBy le x acc ++ xs).Perm ((x :: acc) ++ xs) :=
      (insertBy_perm le x acc).append_right xs
    have h3 : ((x :: acc) ++ xs).Perm (acc ++ x :: xs) := List.perm_middle.symm
    exact (h1.trans h2).trans h3

/-- Membership in a sortBy result is membership in the input. -/
theorem mem_sortBy {α : Type} {x : α} (le : α → α → Bool) (l : List α) :
    x ∈ sortBy le l ↔ x ∈ l := by
  have h : (sortBy le l).Perm l := by
    have := sortBy_fold_perm le l []
    simpa [sortBy] using this
  exact h.mem_iff

/-- bumpCount keeps every stored count positive. -/
theorem bumpCount_pos (k : String) :
    ∀ l : List (String × Nat), (∀ p ∈ l, 0 < p.2) → ∀ p ∈ bumpCount k l, 0 < p.2
  | [], _, p, hp => by
    unfold bumpCount at hp
    rw [List.mem_singleton] at hp
    subst hp
    exact Nat.one_pos
  | (a, b) :: t, h, p, hp => by
    unfold bumpCount at hp
    by_cases hak : a = k
    · rw [if_pos hak] at hp
      rcases List.mem_cons.mp hp with heq | hmem
      · subst heq
        exact Nat.succ_pos b
      · exact h p (List.mem_cons_of_mem _ hmem)
    · rw [if_neg hak] at hp
      rcases List.mem_cons.mp hp with heq | hmem
      · subst heq
        exact h (a, b) (List.mem_cons_self _ _)
      · exact bumpCount_pos k t (fun q hq => h q (List.mem_cons_of_mem _ hq)) p hmem

/-- bumpCount's keys are the old keys, with the bumped key appended when
fresh. -/
theorem bumpCount_keys (k : String) :
    ∀ l : List (String × Nat),
      (bumpCount k l).map Prod.fst =
        (if k ∈ l.map Prod.fst then l.map Prod.fst else l.map Prod.fst ++ [k])
  | [] => by simp [bumpCount]
  | (a, b) :: t => by
    unfold bumpCount
    by_cases hak : a = k
    · subst hak
      simp
    · rw [if_neg hak]
      have ih := bumpCount_keys k t
      by_cases hk : k ∈ t.map Prod.fst
      · rw [if_pos hk] at ih
        have : k ∈ ((a, b) :: t).map Prod.fst := by
          simp [List.mem_cons]
          right
          simpa using hk
        rw [if_pos this]
        simp [ih]
      · rw [if_neg hk] at ih
        have : k ∉ ((a, b) :: t).map Prod.fst := by
          simp [List.mem_cons]
          exact ⟨fun he => hak he.symm, by simpa using hk⟩
        rw [if_neg this]
        simp [ih]

/-- bumpCount preserves distinctness of keys. -/
theorem bumpCount_nodup (k : String) (l : List (String × Nat))
    (h : (l.map Prod.fst).Nodup) : ((bumpCount k l).map Prod.fst).Nodup := by
  rw [bumpCount_keys]
  by_cases hk : k ∈ l.map Prod.fst
  · rw [if_pos hk]
    exact h
  · rw [if_neg hk]
    refine List.Nodup.append h (List.nodup_singleton k) ?_
    intro a ha hb
    rw [List.mem_singleton] at hb
    subst hb
    exact hk ha

/-- Invariant of the teamMatchCounts fold: keys stay distinct and counts
stay positive. -/
theorem teamMatchCounts_fold_inv :
    ∀ (records : List Row) (acc : List (String × Nat)),
      (acc.map Prod.fst).Nodup → (∀ p ∈ acc, 0 < p.2) →
      (((records.foldl
          (fun acc r =>
            if r.HomeTeam ≠ "" ∧ r.AwayTeam ≠ "" ∧ r.Date ≠ "" then
              bumpCount r.AwayTeam (bumpCount r.HomeTeam acc)
            else acc) acc)).map Prod.fst).Nodup ∧
      ∀ p ∈ records.foldl
          (fun acc r =>
            if r.HomeTeam ≠ "" ∧ r.AwayTeam ≠ "" ∧ r.Date ≠ "" then
              bumpCount r.AwayTeam (bumpCount r.HomeTeam acc)
            else acc) acc, 0 < p.2
  | [], acc, h1, h2 => ⟨h1, h2⟩
  | r :: rest, acc, h1, h2 => by
    rw [List.foldl_cons]
    by_cases hc : r.HomeTeam ≠ "" ∧ r.AwayTeam ≠ "" ∧ r.Date ≠ ""
    · rw [if_pos hc]
      exact teamMatchCounts_fold_inv rest _
        (bumpCount_nodup _ _ (bumpCount_nodup _ _ h1))
        (bumpCount_pos _ _ (bumpCount_pos _ _ h2))
    · rw [if_neg hc]
      exact teamMatchCounts_fold_inv rest acc h1 h2

/-- The team counter has distinct keys. -/
theorem teamMatchCounts_nodup (records : List Row) :
    ((teamMatchCounts records).map Prod.fst).Nodup :=
  (teamMatchCounts_fold_inv records [] (by simp) (by simp)).1

/-- Every stored team count is positive. -/
theorem teamMatchCounts_pos (records : List Row) :
    ∀ p ∈ teamMatchCounts records, 0 < p.2 :=
  (teamMatchCounts_fold_inv records [] (by simp) (by simp)).2

/-- In an association list with distinct keys, find? retrieves exactly the
stored pair. -/
theorem find_of_mem_nodup :
    ∀ {l : List (String × Nat)}, ((l.map Prod.fst).Nodup) →
      ∀ {t : String} {n : Nat}, (t, n) ∈ l →
      l.find? (fun p => p.1 == t) = some (t, n) := by
  intro l
  induction l with
  | nil =>
    intro _ t n h
    simp at h
  | cons q r ih =>
    intro hnd t n h
    obtain ⟨a, b⟩ := q
    rcases List.mem_cons.mp h with heq | hmem
    · rw [← heq]
      apply List.find?_cons_of_pos
      simp
    · have ha : a ≠ t := by
        intro he
        subst he
        have : a ∈ r.map Prod.fst := List.mem_map.mpr ⟨(a, n), hmem, rfl⟩
        rw [List.map_cons] at hnd
        exact (List.nodup_cons.mp hnd).1 this
      rw [List.find?_cons_of_neg]
      · rw [List.map_cons] at hnd
        exact ih (List.nodup_cons.mp hnd).2 hmem
      · simp [ha]

/-- countOf reads back a stored count. -/
theorem countOf_eq_of_mem {records : List Row} {t : String} {n : Nat}
    (h : (t, n) ∈ teamMatchCounts records) : countOf records t = n := by
  unfold countOf
  rw [find_of_mem_nodup (teamMatchCounts_nodup records) h]

/-- A team with a positive countOf is stored with that count. -/
theorem mem_counts_of_pos {records : List Row} {t : String}
    (h : 0 < countOf records t) :
    (t, countOf records t) ∈ teamMatchCounts records := by
  cases hf : (teamMatchCounts records).find? (fun p => p.1 == t) with
  | none =>
    exfalso
    unfold countOf at h
    rw [hf] at h
    simp at h
  | some p =>
    have hc : countOf records t = p.2 := by
      unfold countOf
      rw [hf]
    rw [hc]
    have hp1 : p.1 = t := by
      have := List.find?_some hf
      simpa using this
    have hpm : p ∈ teamMatchCounts records := List.mem_of_find?_eq_some hf
    obtain ⟨a, b⟩ := p
    simp only at hp1 ⊢
    subst hp1
    exact hpm

/-- C9: in both revisions the detector's acceptance band is inclusive at
its bounds and a team appearing in zero countable matches is never
selected: selection is exactly a positive match count inside the band (the
absolute 30..40 band in part_004, and at least the 60-percent threshold -
modelled by exact cross-multiplication - in part_002). -/
theorem detect_band_inclusive (records : List Row) (t : String) :
    (t ∈ detectPremierLeagueTeams_v4 records ↔
      30 ≤ countOf records t ∧ countOf records t ≤ 40) ∧
    (t ∈ detectPremierLeagueTeams records ↔
      0 < countOf records t ∧ 6 * records.length ≤ 10 * countOf records t) := by
  constructor
  · constructor
    · intro ht
      unfold detectPremierLeagueTeams_v4 at ht
      rw [mem_sortBy] at ht
      obtain ⟨p, hp, hpt⟩ := List.mem_map.mp ht
      obtain ⟨hpm, hband⟩ := List.mem_filter.mp hp
      rw [decide_eq_true_eq] at hband
      have hcnt : countOf records p.1 = p.2 := countOf_eq_of_mem (Prod.mk.eta ▸ hpm)
      rw [← hpt, hcnt]
      exact hband
    · rintro ⟨h30, h40⟩
      have hpos : 0 < countOf records t := by omega
      have hmem := mem_counts_of_pos hpos
      unfold detectPremierLeagueTeams_v4
      rw [mem_sortBy]
      refine List.mem_map.mpr ⟨(t, countOf records t), List.mem_filter.mpr ⟨hmem, ?_⟩, rfl⟩
      rw [decide_eq_true_eq]
      exact ⟨h30, h40⟩
  · constructor
    · intro ht
      unfold detectPremierLeagueTeams at ht
      rw [mem_sortBy] at ht
      obtain ⟨p, hp, hpt⟩ := List.mem_map.mp ht
      obtain ⟨hpm, hband⟩ := List.mem_filter.mp hp
      rw [decide_eq_true_eq] at hband
      have hcnt : countOf records p.1 = p.2 := countOf_eq_of_mem (Prod.mk.eta ▸ hpm)
      have hpos : 0 < p.2 := teamMatchCounts_pos records p hpm
      rw [← hpt, hcnt]
      exact ⟨hpos, hband⟩
    · rintro ⟨hpos, hth⟩
      have hmem := mem_counts_of_pos hpos
      unfold detectPremierLeagueTeams
      rw [mem_sortBy]
      refine List.mem_map.mpr ⟨(t, countOf records t), List.mem_filter.mpr ⟨hmem, ?_⟩, rfl⟩
      rw [decide_eq_true_eq]
      exact hth

end PLFix
